import Mathlib

/-!
Verification of the go-autobump remediation resolver against its design
specification.  Each Go function under scrutiny is shallowly embedded as an
executable Lean definition over explicit data (strings as `List Char`,
external command results as `Except`/oracle parameters, float CVSS scores as
`Rat` since the code only compares them).  Theorems below settle the frozen
claims about the embedded code.
-/

namespace Autobump

/-! ## Version policy (internal/gomod/parser.go)

`extractMajor` embeds the Go helper: strip a leading "v" (strings.TrimPrefix),
truncate at the first '.', then parse with `fmt.Sscanf "%d"` (skip leading
whitespace, optional sign, longest digit run, int64 range check; a scan
error - no digits, or a value outside the int64 range - leaves 0). -/

/-- `strings.TrimPrefix(version, "v")` on character lists. -/
def stripV : List Char → List Char
  | 'v' :: rest => rest
  | l => l

/-- `version[:idx]` for `idx` the first '.', or the whole string without one. -/
def truncAtDot (l : List Char) : List Char :=
  l.takeWhile (fun c => decide (c ≠ '.'))

/-- Numeric value of the longest leading digit run (0 if there is none). -/
def digitRunVal (l : List Char) : Nat :=
  (l.takeWhile (fun c => decide ('0' ≤ c ∧ c ≤ '9'))).foldl
    (fun n c => 10 * n + (c.toNat - '0'.toNat)) 0

def int64Min : Int := -9223372036854775808

def int64Max : Int := 9223372036854775807

/-- The range check of `strconv.ParseInt(tok, 10, 64)` inside `Sscanf`: a
token whose value does not fit in an int64 is a scan error, so the scan
target keeps its zero value. -/
def int64Checked (v : Int) : Int :=
  if v < int64Min ∨ int64Max < v then 0 else v

/-- `fmt.Sscanf(s, "%d", &major)`: skip spaces, optional sign, digit run,
then parse as int64; on a scan error (no digits, or int64 overflow) the
target variable keeps its zero value. -/
def sscanfInt (l : List Char) : Int :=
  int64Checked
    (if (l.dropWhile Char.isWhitespace).head? = some '+' then
      Int.ofNat (digitRunVal (l.dropWhile Char.isWhitespace).tail)
    else if (l.dropWhile Char.isWhitespace).head? = some '-' then
      - Int.ofNat (digitRunVal (l.dropWhile Char.isWhitespace).tail)
    else Int.ofNat (digitRunVal (l.dropWhile Char.isWhitespace)))

/-- `extractMajor` from internal/gomod/parser.go. -/
def extractMajor (version : String) : Int :=
  sscanfInt (truncAtDot (stripV version.data))

/-- `IsMajorVersionBump` from internal/gomod/parser.go:
`newMajor > oldMajor`. -/
def IsMajorVersionBump (oldVersion newVersion : String) : Bool :=
  decide (extractMajor oldVersion < extractMajor newVersion)

/-- `NormalizeVersion` from internal/gomod/parser.go.  The Go code tests
`version == "latest"`, `version == ""`, `strings.HasPrefix(version, "v")`
(equivalently: first character 'v'), then `version[0] >= '0' && version[0] <= '9'`. -/
def NormalizeVersion (version : String) : String :=
  if version = "latest" then version
  else if version = "" then version
  else
    match version.data with
    | [] => version
    | c :: _ =>
      if c = 'v' then version
      else if '0' ≤ c ∧ c ≤ '9' then "v" ++ version
      else version

/-- Spec-side reading of "leading numeric component": the value of the digit
run that starts the version once the optional 'v' marker is removed. -/
def leadingMajor (s : String) : Nat :=
  digitRunVal (stripV s.data)

/-- The version has a numeric leading component (after the optional marker). -/
def numericLeading (s : String) : Bool :=
  match stripV s.data with
  | c :: _ => decide ('0' ≤ c ∧ c ≤ '9')
  | [] => false

/-! ## Module-path suffix helpers (C10 material) -/

/-- `getBasePath` from internal/updater/indirect.go: split on '/', and if the
last segment has length > 1, starts with 'v' and its second character is a
digit, join all but the last segment back with '/'. -/
def getBasePath (path : String) : String :=
  let parts := path.data.splitOn '/'
  match parts.getLast? with
  | none => path
  | some last =>
    match last with
    | c :: d :: _ =>
      if c = 'v' ∧ '0' ≤ d ∧ d ≤ '9' then String.mk (List.intercalate ['/'] parts.dropLast)
      else path
    | _ => path

/-- `strings.LastIndex(l, "/")` on character lists. -/
def lastSlashIdx : List Char → Option Nat
  | [] => none
  | c :: rest =>
    match lastSlashIdx rest with
    | some i => some (i + 1)
    | none => if c = '/' then some 0 else none

/-- `stripMajorVersionSuffix` from internal/gomod/parser.go: drop a final
segment of the form "vN" with N's first digit in '2'..'9' and only digits
after the 'v'. -/
def stripMajorVersionSuffix (path : String) : String :=
  match lastSlashIdx path.data with
  | none => path
  | some i =>
    match path.data.drop (i + 1) with
    | c :: d :: rest =>
      if c = 'v' ∧ ('2' ≤ d ∧ d ≤ '9') ∧ (∀ x ∈ d :: rest, '0' ≤ x ∧ x ≤ '9') then
        String.mk (path.data.take i)
      else path
    | _ => path

/-- Branch condition of `getBasePath` on a final segment. -/
def vDigitSeg : List Char → Bool
  | c :: d :: _ => decide (c = 'v' ∧ '0' ≤ d ∧ d ≤ '9')
  | _ => false

/-- Branch condition of `stripMajorVersionSuffix` on a final segment. -/
def pureMajorSeg : List Char → Bool
  | c :: d :: rest => decide (c = 'v' ∧ ('2' ≤ d ∧ d ≤ '9') ∧ (∀ x ∈ d :: rest, '0' ≤ x ∧ x ≤ '9'))
  | _ => false

/-! ## go.mod requirements (internal/gomod/parser.go)

A `Dependency` models one `require` entry of the parsed go.mod file
(`req.Mod.Path`, `req.Mod.Version`, `req.Indirect`).  The parser accessors
below walk that list exactly as the Go methods walk `ModFile.Require`. -/

structure Dependency where
  path : String
  version : String
  indirect : Bool
deriving Repr, DecidableEq

/-- `Parser.GetDirectDependencies`. -/
def GetDirectDependencies (reqs : List Dependency) : List Dependency :=
  reqs.filter (fun d => !d.indirect)

/-- `Parser.GetIndirectDependencies`. -/
def GetIndirectDependencies (reqs : List Dependency) : List Dependency :=
  reqs.filter (fun d => d.indirect)

/-- `Parser.GetVersion`: version of the first matching require entry, "" if absent. -/
def GetVersion (reqs : List Dependency) (pkgPath : String) : String :=
  match reqs.find? (fun r => r.path == pkgPath) with
  | some r => r.version
  | none => ""

/-! ## Chain tracer helpers (internal/updater/indirect.go) -/

/-- `extractNamespace`: first two '/'-separated segments, "" if fewer than two. -/
def extractNamespace (modulePath : String) : String :=
  let parts := modulePath.data.splitOn '/'
  if parts.length < 2 then ""
  else String.mk (List.intercalate ['/'] (parts.take 2))

/-- `importPathToModulePath`: longest require path that is a
whole-segment prefix of the import path; the import path itself if none
matches (the parser-failure fallback is the same value). -/
def importPathToModulePath (reqs : List Dependency) (importPath : String) : String :=
  let allDeps := GetDirectDependencies reqs ++ GetIndirectDependencies reqs
  let bestMatch := allDeps.foldl
    (fun best d =>
      if d.path.data.isPrefixOf importPath.data
          ∧ (importPath.data.length = d.path.data.length
             ∨ importPath.data[d.path.data.length]? = some '/')
          ∧ best.data.length < d.path.data.length
      then d.path else best) ""
  if bestMatch ≠ "" then bestMatch else importPath

/-- `findRelatedDirectDependencies`: direct dependencies sharing the
vulnerable package's namespace; if none, indirect ones (excluding the
vulnerable package itself). -/
def findRelatedDirectDependencies (reqs : List Dependency) (indirectPkg : String) : List String :=
  let ns := extractNamespace indirectPkg
  if ns = "" then []
  else
    let relatedDeps := ((GetDirectDependencies reqs).filter
      (fun d => decide (extractNamespace d.path = ns))).map (fun d => d.path)
    if relatedDeps = [] then
      ((GetIndirectDependencies reqs).filter
        (fun d => decide (d.path ≠ indirectPkg ∧ extractNamespace d.path = ns))).map
        (fun d => d.path)
    else relatedDeps

/-- `strings.TrimSpace` on character lists. -/
def trimSpace (s : String) : String :=
  String.mk (((s.data.dropWhile Char.isWhitespace).reverse.dropWhile Char.isWhitespace).reverse)

/-- A trimmed `go mod why` output line the parsing loop does not skip:
non-empty and not a "#" comment line. -/
def usableWhyLine (t : String) : Bool :=
  decide (¬ (t = "" ∨ t.data.head? = some '#'))

/-- Parsing loop of `FindDirectDependencyFor`: trim every line, skip blank
and "#" lines, skip the first remaining line (the root module), return the
next one alone (the loop breaks after the first append). -/
def parseWhyLines (lines : List String) : List String :=
  match (lines.map trimSpace).filter usableWhyLine with
  | [] => []
  | [_] => []
  | _ :: d :: _ => [d]

/-- `FindDirectDependencyFor`, with the external `go mod why` invocation
abstracted as its result: an error, or the output split into lines. -/
def FindDirectDependencyFor (whyOutput : Except Unit (List String)) :
    Except Unit (List String) :=
  match whyOutput with
  | Except.error e => Except.error e
  | Except.ok lines => Except.ok (parseWhyLines lines)

/-- `ModuleVersion` from internal/gomod/parser.go. -/
structure ModuleVersion where
  path : String
  version : String
deriving Repr, DecidableEq

/-- `GraphEdge`; the Go fields `From`/`To` are named `src`/`dst` here
because `from` is reserved in Lean. -/
structure GraphEdge where
  src : ModuleVersion
  dst : ModuleVersion
deriving Repr, DecidableEq

/-- `findDirectDepVersionWithFix`: on a graph error, the error propagates;
otherwise the collected versions are discarded and "latest" is returned
(the Go code says "return latest and let MVS handle it"). -/
def findDirectDepVersionWithFix (modGraph : Except Unit (List GraphEdge))
    (directDep : String) : Except Unit String :=
  match modGraph with
  | Except.error e => Except.error e
  | Except.ok edges =>
    let directDepBase := getBasePath directDep
    let _directDepVersions := edges.filterMap
      (fun e =>
        if getBasePath e.src.path = directDepBase ∧ e.src.version ≠ "" then some e.src.version
        else none)
    Except.ok "latest"

/-! ## Trivy scan results (internal/trivy) -/

/-- Configuration fields consumed by the embedded code paths
(internal/config/config.go). -/
structure Config where
  path : String
  cvssThreshold : Rat
  skipTidy : Bool
  dryRun : Bool
  allowMajor : Bool
  generateVEX : Bool
deriving Repr, DecidableEq

/-- CVSS scoring entry; the float V3Score is modelled as a rational since
the code only compares scores. -/
structure CVSS where
  v3Score : Rat
  v3Vector : String
deriving Repr, DecidableEq

/-- A vulnerability as produced by `convertTrivyOutput`; the Go
`map[string]CVSS` is a list of (source, CVSS) pairs here. -/
structure Vulnerability where
  vulnerabilityID : String
  pkgName : String
  installedVersion : String
  fixedVersion : String
  severity : String
  title : String
  description : String
  cvss : List (String × CVSS)
  indirect : Bool
  cvssScore : Rat
deriving Repr, DecidableEq

/-- `getHighestCVSSScore`: fold keeping the largest V3 score seen, starting
from 0. -/
def getHighestCVSSScore (cvssMap : List (String × CVSS)) : Rat :=
  cvssMap.foldl (fun highest c => if c.2.v3Score > highest then c.2.v3Score else highest) 0

/-- `ScanResult` from internal/trivy. -/
structure ScanResult where
  target : String
  vulnerabilities : List Vulnerability
deriving Repr, DecidableEq

/-- `FilterByCVSS`: keep vulnerabilities whose stored `CVSSScore` is at
least the threshold, preserving target and order. -/
def FilterByCVSS (result : ScanResult) (threshold : Rat) : ScanResult :=
  ⟨result.target, result.vulnerabilities.filter (fun v => decide (threshold ≤ v.cvssScore))⟩

/-! ## VEX generation (internal/vex/generator.go)

The AI collaborator call (`Client.GenerateVEXJustification` plus
`json.Unmarshal` of its response) is abstracted as an outcome: the call
failed or timed out; or it returned a response that is unparseable
(`response none`) or parses to a justification. Timestamps, document
assembly, and file output carry no decision logic and are not modelled. -/

structure AIGeneratedJustification where
  status : String
  justification : String
  impactStatement : String
deriving Repr, DecidableEq

inductive AICallOutcome where
  | failure : AICallOutcome
  | response : Option AIGeneratedJustification → AICallOutcome
deriving Repr, DecidableEq

def validStatuses : List String :=
  ["not_affected", "affected", "fixed", "under_investigation"]

/-- `generateAIJustification`: errors (call failure, timeout, unparseable
response) return an error (`none`); a parsed response with a status outside
`validStatuses` has its status overwritten with "under_investigation" but
keeps its other fields. -/
def generateAIJustification (call : AICallOutcome) : Option AIGeneratedJustification :=
  match call with
  | AICallOutcome.failure => none
  | AICallOutcome.response none => none
  | AICallOutcome.response (some j) =>
    if validStatuses.contains j.status then some j
    else some (AIGeneratedJustification.mk "under_investigation" j.justification j.impactStatement)

/-- The generic impact statement of the AI-failure fallback in `Generate`. -/
def genericAIImpact : String := "No fix available. Requires manual analysis."

/-- One VEX statement as filled in by `Generate` (vulnerability, product,
status, justification, impact statement). -/
structure Statement where
  vulnerabilityID : String
  productID : String
  status : String
  justification : String
  impactStatement : String
deriving Repr, DecidableEq

/-- Per-finding statement construction inside `Generate`'s loop: with no AI
client, a fixed under_investigation statement; with a client, either the
failure fallback or the (validated) AI justification. -/
def makeStatement (vuln : Vulnerability) (aiConfigured : Bool) (call : AICallOutcome) :
    Statement :=
  if aiConfigured then
    match generateAIJustification call with
    | none =>
      Statement.mk vuln.vulnerabilityID vuln.pkgName "under_investigation" "" genericAIImpact
    | some j =>
      Statement.mk vuln.vulnerabilityID vuln.pkgName j.status j.justification j.impactStatement
  else
    Statement.mk vuln.vulnerabilityID vuln.pkgName "under_investigation" ""
      ("No fix available for " ++ vuln.vulnerabilityID ++ " in " ++ vuln.pkgName ++ "@"
        ++ vuln.installedVersion ++ ". Requires manual analysis.")

/-! ## The chain-update resolver (internal/updater/indirect.go)

`updateThroughDirectDep` is embedded over an oracle environment describing
the results of its external invocations.  Each candidate iteration of the
loop performs `updateDirectDepAndVerify` plus a verification scan; its
net effect is one of four outcomes, supplied per loop index by `tryCand`. -/

inductive CandResult where
  | updateFailed : CandResult
  | scanFailed : CandResult
  | stillPresent : CandResult
  | fixed : CandResult
deriving Repr, DecidableEq

structure TraceEnv where
  whyOutput : Except Unit (List String)
  reqs : List Dependency
  relatedParserOk : Bool
  tryCand : Nat → CandResult
  modGraph : Except Unit (List GraphEdge)
  legacyParserOk : Bool
  legacyGoGetOk : Bool
  legacyTidyOk : Bool

/-- The merge-and-deduplicate step of `updateThroughDirectDep`: resolve each
raw path to its module path and append it unless already seen (the Go code
runs this as two loops over a shared `seenModules` set, which is one fold
over the concatenated list). -/
def dedupModulePaths (reqs : List Dependency) (deps : List String) : List String :=
  deps.foldl
    (fun acc dep =>
      let modulePath := importPathToModulePath reqs dep
      if modulePath ∈ acc then acc else acc ++ [modulePath]) []

/-- The full deduplicated candidate list (explicit-trace candidates first,
then namespace candidates) built by `updateThroughDirectDep`. -/
def chainCandidates (reqs : List Dependency) (whyDeps : List String) (vulnPkg : String) :
    List String :=
  dedupModulePaths reqs (whyDeps ++ findRelatedDirectDependencies reqs vulnPkg)

inductive UOutcome where
  | traceError : UOutcome
  | noCandidates : UOutcome
  | fixedViaCandidate : Nat → UOutcome
  | panicIndex : UOutcome
  | legacyParserError : UOutcome
  | legacyMajorBlocked : UOutcome
  | legacyGoGetError : UOutcome
  | legacyTidyError : UOutcome
  | legacyOk : UOutcome
deriving Repr, DecidableEq

/-- Result of `updateThroughDirectDep`: how the Go function returned
(`legacyOk`/`fixedViaCandidate` are its `nil` returns, `panicIndex` is the
out-of-range index on `directDeps[0]`, everything else an error return),
together with the candidate list it iterated. -/
structure TraceResult where
  outcome : UOutcome
  candidates : List String
deriving Repr, DecidableEq

/-- The target version for the post-loop fallback update: the version
computed by `findDirectDepVersionWithFix`, or "latest" when it errored
(`if err != nil { targetVersion = "latest" }`). -/
def targetVersionOf (g : Except Unit (List GraphEdge)) (d : String) : String :=
  match findDirectDepVersionWithFix g d with
  | Except.error _ => "latest"
  | Except.ok v => v

/-- Index of the first loop iteration whose candidate clears the finding. -/
def firstFixed (tryCand : Nat → CandResult) (n : Nat) : Option Nat :=
  (List.range n).find? (fun i => tryCand i == CandResult.fixed)

/-- `updateThroughDirectDep` from internal/updater/indirect.go. -/
def updateThroughDirectDep (env : TraceEnv) (vulnPkg : String) (cfg : Config) : TraceResult :=
  match FindDirectDependencyFor env.whyOutput with
  | Except.error _ => TraceResult.mk UOutcome.traceError []
  | Except.ok directDeps =>
    let relatedDeps :=
      if env.relatedParserOk then findRelatedDirectDependencies env.reqs vulnPkg else []
    let allDeps := dedupModulePaths env.reqs (directDeps ++ relatedDeps)
    if allDeps = [] then TraceResult.mk UOutcome.noCandidates []
    else
      match firstFixed env.tryCand allDeps.length with
      | some i => TraceResult.mk (UOutcome.fixedViaCandidate i) allDeps
      | none =>
        match directDeps with
        | [] => TraceResult.mk UOutcome.panicIndex allDeps
        | directDep :: _ =>
          let targetVersion := targetVersionOf env.modGraph directDep
          if env.legacyParserOk = false then TraceResult.mk UOutcome.legacyParserError allDeps
          else
            let currentVersion := GetVersion env.reqs directDep
            if targetVersion ≠ "latest" ∧ IsMajorVersionBump currentVersion targetVersion = true
                ∧ cfg.allowMajor = false
            then TraceResult.mk UOutcome.legacyMajorBlocked allDeps
            else if env.legacyGoGetOk = false then
              TraceResult.mk UOutcome.legacyGoGetError allDeps
            else if cfg.skipTidy = false ∧ env.legacyTidyOk = false then
              TraceResult.mk UOutcome.legacyTidyError allDeps
            else TraceResult.mk UOutcome.legacyOk allDeps

/-- External-command outcomes for one `updateDirectDepAndVerify` call. -/
structure CandEnv where
  goGetOk : Bool
  tidyOk : Bool
deriving Repr, DecidableEq

/-- Commands `updateDirectDepAndVerify` issues against the manifest. -/
inductive GoCmd where
  | goGet : String → String → GoCmd
  | tidy : GoCmd
deriving Repr, DecidableEq

/-- `updateDirectDepAndVerify` from internal/updater/indirect.go: resolve
the module path, run `go get module@latest`, then (unless skipped) `go mod
tidy`.  Returns the Go error result together with the trace of commands
executed. -/
def updateDirectDepAndVerify (reqs : List Dependency) (env : CandEnv) (directDep : String)
    (cfg : Config) : Except Unit Unit × List GoCmd :=
  let modulePath := importPathToModulePath reqs directDep
  if env.goGetOk = false then (Except.error (), [GoCmd.goGet modulePath "latest"])
  else if cfg.skipTidy then (Except.ok (), [GoCmd.goGet modulePath "latest"])
  else if env.tidyOk = false then (Except.error (), [GoCmd.goGet modulePath "latest", GoCmd.tidy])
  else (Except.ok (), [GoCmd.goGet modulePath "latest", GoCmd.tidy])

/-! ## The update command (cmd/update.go, main.go)

`runUpdate`'s external effects are abstracted per discovered manifest: the
scan result of the i-th manifest.  Per-finding update attempts and the VEX
emission only print warnings on failure and never change the return value,
so they do not appear in the environment. -/

structure UpdateEnv where
  configOk : Bool
  goModFiles : Except Unit (List String)
  scan : Nat → Except Unit ScanResult

/-- The unfixed-vulnerability accumulator of `runUpdate`'s manifest loop: a
manifest whose scan fails is skipped with a warning; otherwise the
CVSS-filtered findings without a fixed version are collected. -/
def collectUnfixed (env : UpdateEnv) (cfg : Config) (files : List String) :
    List Vulnerability :=
  ((List.range files.length).map
    (fun i =>
      match env.scan i with
      | Except.error _ => []
      | Except.ok result =>
        (FilterByCVSS result cfg.cvssThreshold).vulnerabilities.filter
          (fun v => v.fixedVersion == ""))).flatten

/-- `runUpdate`: an error only when loading the configuration or
discovering go.mod files fails; afterwards every failure (scan, update,
verification, VEX) is reported as a warning and `nil` is returned. -/
def runUpdate (env : UpdateEnv) (cfg : Config) : Except Unit (List Vulnerability) :=
  if env.configOk = false then Except.error ()
  else
    match env.goModFiles with
    | Except.error _ => Except.error ()
    | Except.ok files => Except.ok (collectUnfixed env cfg files)

/-- `main` from main.go: exit status 1 when `Execute` (here: `runUpdate`)
returns an error, 0 otherwise. -/
def exitCode (env : UpdateEnv) (cfg : Config) : Nat :=
  match runUpdate env cfg with
  | Except.error _ => 1
  | Except.ok _ => 0

/-- Concrete vulnerability above the default threshold, scores as produced
by `convertTrivyOutput`. -/
def sampleVulnHigh : Vulnerability :=
  ⟨"CVE-2024-0001", "github.com/a/b", "v1.0.0", "v1.0.1", "HIGH", "t", "d",
    [("nvd", ⟨8, "CVSS:3.1"⟩), ("ghsa", ⟨6, "CVSS:3.1"⟩)], true, 8⟩

/-- Concrete vulnerability below the default threshold and without a fix. -/
def sampleVulnLow : Vulnerability :=
  ⟨"CVE-2024-0002", "github.com/a/c", "v2.0.0", "", "MEDIUM", "t", "d",
    [("nvd", ⟨5, "CVSS:3.1"⟩)], false, 5⟩

/-- `Except` success test used to state the exit-code characterization. -/
def exceptIsOk : Except Unit (List String) → Bool
  | Except.ok _ => true
  | Except.error _ => false

/-- The default configuration of `config.Default()`. -/
def cfgDefault : Config := ⟨".", 7, false, false, false, false⟩

/-- Update-command environment with one discovered manifest whose scan
fails. -/
def c4_env : UpdateEnv := ⟨true, Except.ok ["a/go.mod"], fun _ => Except.error ()⟩

/-- An AI call outcome whose parsed response carries an invalid status. -/
def c6_call : AICallOutcome :=
  AICallOutcome.response (some ⟨"exploitable", "because", "Specific impact text."⟩)

/-- Requirements of a go.mod that pulls sigstore packages both directly and
indirectly. -/
def sigstoreReqs : List Dependency :=
  [⟨"github.com/sigstore/sigstore-go", "v0.5.0", false⟩,
   ⟨"github.com/sigstore/timestamp-authority", "v1.2.0", true⟩]

def c1_env : TraceEnv :=
  ⟨Except.ok ["# github.com/sigstore/timestamp-authority",
      "(main module does not need module github.com/sigstore/timestamp-authority)"],
   sigstoreReqs, true, fun _ => CandResult.updateFailed, Except.ok [], true, true, true⟩

def c2_env : TraceEnv :=
  ⟨Except.error (), sigstoreReqs, true, fun _ => CandResult.fixed, Except.ok [], true, true, true⟩

def c2w_env : TraceEnv :=
  ⟨Except.ok ["# github.com/a/b", "github.com/my/mod"], [], true,
   fun _ => CandResult.fixed, Except.ok [], true, true, true⟩

def c3_reqs : List Dependency := [⟨"github.com/x/y", "v1.0.0", false⟩]

def c3_cand_env : CandEnv := ⟨true, true⟩

/-! # Theorems -/

/-! ## Supporting lemmas for the version policy -/

theorem digit_not_ws {c : Char} (h1 : '0' ≤ c) : c.isWhitespace = false := by
  unfold Char.isWhitespace
  simp only [Bool.or_eq_false_iff, decide_eq_false_iff_not]
  refine ⟨⟨⟨?_, ?_⟩, ?_⟩, ?_⟩ <;> rintro rfl <;> exact absurd h1 (by decide)

theorem int64Checked_of_le (n : Nat) (hle : Int.ofNat n ≤ int64Max) :
    int64Checked (Int.ofNat n) = Int.ofNat n := by
  unfold int64Checked
  rw [if_neg]
  rintro (hlt | hlt)
  · have h0 : int64Min ≤ Int.ofNat n :=
      le_trans (by decide : int64Min ≤ 0) (Int.ofNat_nonneg n)
    exact absurd hlt (not_lt.mpr h0)
  · exact absurd hlt (not_lt.mpr hle)

theorem sscanfInt_digit {c : Char} (t : List Char) (h1 : '0' ≤ c)
    (hle : Int.ofNat (digitRunVal (c :: t)) ≤ int64Max) :
    sscanfInt (c :: t) = Int.ofNat (digitRunVal (c :: t)) := by
  have hws : c.isWhitespace = false := digit_not_ws h1
  have hdw : (c :: t).dropWhile Char.isWhitespace = c :: t := by
    rw [List.dropWhile_cons]; simp [hws]
  unfold sscanfInt
  rw [hdw]
  have hplus : ¬ (c :: t).head? = some '+' := by
    simp only [List.head?_cons, Option.some.injEq]
    rintro rfl; exact absurd h1 (by decide)
  have hminus : ¬ (c :: t).head? = some '-' := by
    simp only [List.head?_cons, Option.some.injEq]
    rintro rfl; exact absurd h1 (by decide)
  rw [if_neg hplus, if_neg hminus]
  exact int64Checked_of_le _ hle

theorem digitRunVal_truncAtDot (l : List Char) :
    digitRunVal (truncAtDot l) = digitRunVal l := by
  unfold digitRunVal truncAtDot
  congr 1
  rw [List.takeWhile_takeWhile]
  have hfun : (fun a => decide (decide ('0' ≤ a ∧ a ≤ '9') = true ∧ decide (a ≠ '.') = true)) =
      (fun a : Char => decide ('0' ≤ a ∧ a ≤ '9')) := by
    funext a
    by_cases ha : '0' ≤ a ∧ a ≤ '9'
    · have hne : a ≠ '.' := by rintro rfl; exact absurd ha.1 (by decide)
      simp [ha, hne]
    · simp [ha]
  rw [hfun]

theorem extractMajor_eq_leading (s : String) (h : numericLeading s = true)
    (hle : Int.ofNat (leadingMajor s) ≤ int64Max) :
    extractMajor s = Int.ofNat (leadingMajor s) := by
  unfold numericLeading at h
  unfold extractMajor
  unfold leadingMajor at hle ⊢
  rcases hs : stripV s.data with _ | ⟨c, t⟩
  · rw [hs] at h; simp at h
  · rw [hs] at h hle
    simp only [decide_eq_true_eq] at h
    rcases h with ⟨h1, h2⟩
    have hdot : decide (c ≠ '.') = true := by
      simp only [decide_eq_true_eq]
      rintro rfl; exact absurd h1 (by decide)
    have htw : truncAtDot (c :: t) = c :: truncAtDot t := by
      unfold truncAtDot; rw [List.takeWhile_cons, hdot]; simp
    have hle' : Int.ofNat (digitRunVal (c :: truncAtDot t)) ≤ int64Max := by
      rw [← htw, digitRunVal_truncAtDot]
      exact hle
    rw [htw, sscanfInt_digit _ h1 hle', ← htw, digitRunVal_truncAtDot]

theorem data_v_append (v : String) : ("v" ++ v).data = 'v' :: v.data := rfl

theorem norm_of_v_head (v : String) (cs : List Char) (hd : v.data = 'v' :: cs) :
    NormalizeVersion v = v := by
  have hlat : ¬ v = "latest" := by
    intro h; rw [h] at hd
    have hc : (some 'l' : Option Char) = some 'v' := congrArg List.head? hd
    exact absurd hc (by decide)
  have hemp : ¬ v = "" := by
    intro h; rw [h] at hd
    have hc : (none : Option Char) = some 'v' := congrArg List.head? hd
    exact Option.noConfusion hc
  unfold NormalizeVersion
  rw [if_neg hlat, if_neg hemp, hd]
  rfl

theorem norm_of_digit_head (v : String) (c : Char) (cs : List Char)
    (hd : v.data = c :: cs) (h1 : '0' ≤ c) (h2 : c ≤ '9') :
    NormalizeVersion v = "v" ++ v := by
  have hlat : ¬ v = "latest" := by
    intro h; rw [h] at hd
    have hc : (some 'l' : Option Char) = some c := congrArg List.head? hd
    rw [← Option.some.inj hc] at h2
    exact absurd h2 (by decide)
  have hemp : ¬ v = "" := by
    intro h; rw [h] at hd
    have hc : (none : Option Char) = some c := congrArg List.head? hd
    exact Option.noConfusion hc
  have hv : ¬ c = 'v' := by
    rintro rfl; exact absurd h2 (by decide)
  unfold NormalizeVersion
  rw [if_neg hlat, if_neg hemp, hd]
  simp only [if_neg hv, if_pos (And.intro h1 h2)]

theorem norm_of_other (v : String) (c : Char) (cs : List Char)
    (hlat : ¬ v = "latest") (hemp : ¬ v = "") (hd : v.data = c :: cs)
    (hv : ¬ c = 'v') (hdg : ¬ ('0' ≤ c ∧ c ≤ '9')) :
    NormalizeVersion v = v := by
  unfold NormalizeVersion
  rw [if_neg hlat, if_neg hemp, hd]
  simp only [if_neg hv, if_neg hdg]

theorem norm_idem (v : String) :
    NormalizeVersion (NormalizeVersion v) = NormalizeVersion v := by
  by_cases hlat : v = "latest"
  · subst hlat; rfl
  by_cases hemp : v = ""
  · subst hemp; rfl
  rcases hd : v.data with _ | ⟨c, cs⟩
  · exact absurd (String.ext hd) hemp
  by_cases hv : c = 'v'
  · subst hv
    rw [norm_of_v_head v cs hd, norm_of_v_head v cs hd]
  by_cases hdg : '0' ≤ c ∧ c ≤ '9'
  · rw [norm_of_digit_head v c cs hd hdg.1 hdg.2]
    exact norm_of_v_head ("v" ++ v) v.data (data_v_append v)
  · rw [norm_of_other v c cs hlat hemp hd hv hdg,
      norm_of_other v c cs hlat hemp hd hv hdg]

/-! ## C8 and C9 -/

/-- C9: `NormalizeVersion` is idempotent, leaves "latest" and "" unchanged,
leaves versions already starting with the marker 'v' unchanged, and prefixes
'v' to a version whose first character is a digit. -/
theorem c9_normalize_version_spec :
    (∀ v : String, NormalizeVersion (NormalizeVersion v) = NormalizeVersion v)
    ∧ NormalizeVersion "latest" = "latest"
    ∧ NormalizeVersion "" = ""
    ∧ (∀ (v : String) (cs : List Char), v.data = 'v' :: cs → NormalizeVersion v = v)
    ∧ (∀ (v : String) (c : Char) (cs : List Char),
        v.data = c :: cs → '0' ≤ c → c ≤ '9' → NormalizeVersion v = "v" ++ v) :=
  ⟨norm_idem, rfl, rfl, norm_of_v_head, norm_of_digit_head⟩

/-- Witness for C9 at concrete versions from the repository's test table. -/
theorem c9_normalize_version_spec_witness :
    NormalizeVersion "v1.0.0-alpha" = "v1.0.0-alpha" ∧ NormalizeVersion "1.13.3" = "v1.13.3" :=
  ⟨c9_normalize_version_spec.2.2.2.1 "v1.0.0-alpha" "1.0.0-alpha".data rfl,
   c9_normalize_version_spec.2.2.2.2 "1.13.3" '1' ".13.3".data rfl (by decide) (by decide)⟩

/-- C8 counterexample: a leading component of 9223372036854775808 (one more
than the int64 maximum) overflows `fmt.Sscanf "%d"`, so the old version's
major parses as 0 and `IsMajorVersionBump` reports true although the new
version's leading numeric component (1) is not greater than the old one's:
the claimed equivalence fails on the program. -/
theorem c8_counterexample :
    numericLeading "v9223372036854775808.0" = true
    ∧ numericLeading "v1.0" = true
    ∧ leadingMajor "v1.0" < leadingMajor "v9223372036854775808.0"
    ∧ extractMajor "v9223372036854775808.0" = 0
    ∧ IsMajorVersionBump "v9223372036854775808.0" "v1.0" = true := by
  refine ⟨by decide, by decide, by decide, by decide, by decide⟩

/-- C8 amended: `IsMajorVersionBump` compares leading numeric components:
for versions whose leading numeric component (after the optional 'v'
marker) exists and fits in an int64, it is true iff the new leading
component is strictly greater (components beyond the int64 range are a scan
error and parse as 0); it is reflexively false for every version; and the
spec's three concrete examples hold. -/
theorem c8_is_major_version_bump_spec :
    (∀ oldV newV : String, numericLeading oldV = true → numericLeading newV = true →
      Int.ofNat (leadingMajor oldV) ≤ int64Max → Int.ofNat (leadingMajor newV) ≤ int64Max →
      (IsMajorVersionBump oldV newV = true ↔ leadingMajor oldV < leadingMajor newV))
    ∧ (∀ v : String, IsMajorVersionBump v v = false)
    ∧ IsMajorVersionBump "v1.2.3" "v2.0.0" = true
    ∧ IsMajorVersionBump "v1.2.3" "v1.9.9" = false
    ∧ IsMajorVersionBump "v0.1.0" "v1.0.0" = true := by
  refine ⟨?_, ?_, by decide, by decide, by decide⟩
  · intro o n ho hn ho2 hn2
    unfold IsMajorVersionBump
    rw [extractMajor_eq_leading o ho ho2, extractMajor_eq_leading n hn hn2]
    simp [Int.ofNat_lt]
  · intro v
    unfold IsMajorVersionBump
    simp

/-- Witness for C8 at concrete versions (test-table case "1.2.5" -> "2.0.3"). -/
theorem c8_is_major_version_bump_spec_witness :
    IsMajorVersionBump "1.2.5" "2.0.3" = true :=
  (c8_is_major_version_bump_spec.1 "1.2.5" "2.0.3"
    (by decide) (by decide) (by decide) (by decide)).mpr (by decide)

theorem getHighest_foldl (l : List (String × CVSS)) :
    getHighestCVSSScore l = (l.map (fun p => p.2.v3Score)).foldl max 0 := by
  unfold getHighestCVSSScore
  suffices h : ∀ acc : Rat,
      l.foldl (fun highest c => if c.2.v3Score > highest then c.2.v3Score else highest) acc
        = (l.map (fun p => p.2.v3Score)).foldl max acc from h 0
  induction l with
  | nil => intro acc; rfl
  | cons x xs ih =>
    intro acc
    simp only [List.foldl_cons, List.map_cons]
    have hstep : (if x.2.v3Score > acc then x.2.v3Score else acc) = max acc x.2.v3Score := by
      rcases le_or_lt x.2.v3Score acc with h | h
      · rw [if_neg (not_lt.mpr h), max_eq_left h]
      · rw [if_pos h, max_eq_right h.le]
    rw [hstep, ih]

/-- C7: `FilterByCVSS` returns exactly the vulnerabilities whose score (the
maximum V3 score over all sources, 0 when none) is at least the threshold,
as an order-preserving sublist, and it is idempotent. -/
theorem c7_filter_by_cvss_spec :
    (∀ (F : ScanResult) (T : Rat),
      (∀ v ∈ F.vulnerabilities, v.cvssScore = getHighestCVSSScore v.cvss) →
      FilterByCVSS F T =
        ⟨F.target, F.vulnerabilities.filter (fun v => decide (T ≤ getHighestCVSSScore v.cvss))⟩)
    ∧ (∀ (F : ScanResult) (T : Rat),
        (FilterByCVSS F T).vulnerabilities.Sublist F.vulnerabilities)
    ∧ (∀ (F : ScanResult) (T : Rat), FilterByCVSS (FilterByCVSS F T) T = FilterByCVSS F T)
    ∧ getHighestCVSSScore [] = 0
    ∧ (∀ l : List (String × CVSS),
        getHighestCVSSScore l = (l.map (fun p => p.2.v3Score)).foldl max 0) := by
  refine ⟨?_, ?_, ?_, rfl, getHighest_foldl⟩
  · intro F T h
    unfold FilterByCVSS
    congr 1
    apply List.filter_congr
    intro v hv
    rw [h v hv]
  · intro F T
    exact List.filter_sublist _
  · intro F T
    unfold FilterByCVSS
    congr 1
    rw [List.filter_filter]
    apply List.filter_congr
    intro v _
    simp

/-- Witness for C7: trivy-style scan result with one score above and one
below the default 7.0 threshold. -/
theorem c7_filter_by_cvss_spec_witness :
    FilterByCVSS (ScanResult.mk "go.mod" [sampleVulnHigh, sampleVulnLow]) 7
      = ScanResult.mk "go.mod" [sampleVulnHigh] := by
  rw [c7_filter_by_cvss_spec.1 (ScanResult.mk "go.mod" [sampleVulnHigh, sampleVulnLow]) 7
    (by decide)]
  decide

/-! ## C10: path-suffix helper comparison -/

theorem modifyHead_append {α} (f : List α → List α) (xs ys : List (List α)) (h : xs ≠ []) :
    (xs ++ ys).modifyHead f = xs.modifyHead f ++ ys := by
  cases xs with
  | nil => exact absurd rfl h
  | cons a as => rfl

theorem splitOnP_append_sep {α} (p : α → Bool) (sep : α) (hsep : p sep = true)
    (l1 l2 : List α) :
    (l1 ++ sep :: l2).splitOnP p = l1.splitOnP p ++ l2.splitOnP p := by
  induction l1 with
  | nil => simp [List.splitOnP_cons, hsep]
  | cons a as ih =>
    rw [List.cons_append, List.splitOnP_cons, List.splitOnP_cons, ih]
    by_cases ha : p a
    · simp [ha]
    · simp only [ha, Bool.false_eq_true, if_false]
      rw [modifyHead_append _ _ _ (List.splitOnP_ne_nil _ as)]

theorem splitOn_append_last (l1 l2 : List Char) (h : ∀ c ∈ l2, c ≠ '/') :
    (l1 ++ '/' :: l2).splitOn '/' = l1.splitOn '/' ++ [l2] := by
  unfold List.splitOn
  rw [splitOnP_append_sep _ '/' (by simp) l1 l2]
  congr 1
  apply List.splitOnP_eq_single
  intro x hx
  simp [h x hx]

theorem lastSlashIdx_none (l : List Char) (h : ∀ c ∈ l, c ≠ '/') :
    lastSlashIdx l = none := by
  induction l with
  | nil => rfl
  | cons c rest ih =>
    unfold lastSlashIdx
    rw [ih (fun x hx => h x (List.mem_cons_of_mem c hx))]
    simp [h c (List.mem_cons_self c rest)]

theorem lastSlashIdx_append (l1 l2 : List Char) (h : ∀ c ∈ l2, c ≠ '/') :
    lastSlashIdx (l1 ++ '/' :: l2) = some l1.length := by
  induction l1 with
  | nil =>
    rw [List.nil_append]
    unfold lastSlashIdx
    rw [lastSlashIdx_none l2 h]
    simp
  | cons c rest ih =>
    rw [List.cons_append]
    unfold lastSlashIdx
    rw [ih]
    simp


/-- C10 counterexample: on "github.com/foo/v1" the two suffix-stripping
helpers disagree, so they are not equivalent. -/
theorem c10_counterexample :
    getBasePath "github.com/foo/v1" = "github.com/foo"
    ∧ stripMajorVersionSuffix "github.com/foo/v1" = "github.com/foo/v1"
    ∧ getBasePath "github.com/foo/v1" ≠ stripMajorVersionSuffix "github.com/foo/v1" := by
  refine ⟨by decide, by decide, by decide⟩

/-- C10 amended: on a path `base ++ "/" ++ seg` with a slash-free final
segment, `getBasePath` strips the final segment exactly when it has length
at least two, starts with 'v' and has a digit second character, while
`stripMajorVersionSuffix` strips it exactly when it is 'v' followed by a
digit in '2'..'9' and then digits only; the two conditions differ. -/
theorem c10_base_path_characterization (base seg : String) (h : ∀ c ∈ seg.data, c ≠ '/') :
    getBasePath (base ++ "/" ++ seg)
      = (if vDigitSeg seg.data = true then base else base ++ "/" ++ seg)
    ∧ stripMajorVersionSuffix (base ++ "/" ++ seg)
      = (if pureMajorSeg seg.data = true then base else base ++ "/" ++ seg) := by
  have hdata : (base ++ "/" ++ seg).data = base.data ++ '/' :: seg.data := by
    have h0 : (base ++ "/" ++ seg).data = (base.data ++ ['/']) ++ seg.data := rfl
    rw [h0, List.append_assoc]
    rfl
  constructor
  · unfold getBasePath
    rw [hdata, splitOn_append_last base.data seg.data h]
    simp only [List.getLast?_concat, List.dropLast_concat]
    have hbase : String.mk (List.intercalate ['/'] (base.data.splitOn '/')) = base := by
      rw [List.intercalate_splitOn]
    rcases hseg : seg.data with _ | ⟨c, _ | ⟨d, rest⟩⟩
    · simp [vDigitSeg]
    · simp [vDigitSeg]
    · simp only [vDigitSeg]
      by_cases hcond : c = 'v' ∧ '0' ≤ d ∧ d ≤ '9'
      · rw [if_pos hcond, if_pos (by simp [hcond]), hbase]
      · rw [if_neg hcond, if_neg (by simp [hcond])]
  · unfold stripMajorVersionSuffix
    rw [hdata, lastSlashIdx_append base.data seg.data h]
    have hdrop : (base.data ++ '/' :: seg.data).drop (base.data.length + 1) = seg.data := by
      have h1 : base.data ++ '/' :: seg.data = (base.data ++ ['/']) ++ seg.data := by
        rw [List.append_assoc]; rfl
      rw [h1]
      have h2 : base.data.length + 1 = (base.data ++ ['/']).length := by simp
      rw [h2, List.drop_left]
    have htake : (base.data ++ '/' :: seg.data).take base.data.length = base.data := by
      exact List.take_left base.data ('/' :: seg.data)
    simp only [hdrop, htake]
    rcases hseg : seg.data with _ | ⟨c, _ | ⟨d, rest⟩⟩
    · simp [pureMajorSeg]
    · simp [pureMajorSeg]
    · simp only [pureMajorSeg]
      by_cases hcond : c = 'v' ∧ ('2' ≤ d ∧ d ≤ '9') ∧ (∀ x ∈ d :: rest, '0' ≤ x ∧ x ≤ '9')
      · rw [if_pos hcond, if_pos (decide_eq_true hcond)]
      · rw [if_neg hcond, if_neg (fun hh => hcond (of_decide_eq_true hh))]

/-- Witness for C10's amended claim on the counterexample suffix "v1" and on
a genuine major suffix "v2". -/
theorem c10_base_path_characterization_witness :
    getBasePath ("github.com/foo" ++ "/" ++ "v1") = "github.com/foo"
    ∧ stripMajorVersionSuffix ("github.com/foo" ++ "/" ++ "v1")
        = "github.com/foo" ++ "/" ++ "v1"
    ∧ stripMajorVersionSuffix ("github.com/foo" ++ "/" ++ "v2") = "github.com/foo" := by
  have h1 := c10_base_path_characterization "github.com/foo" "v1" (by decide)
  have h2 := c10_base_path_characterization "github.com/foo" "v2" (by decide)
  refine ⟨?_, ?_, ?_⟩
  · rw [h1.1]; decide
  · rw [h1.2]; decide
  · rw [h2.2]; decide

/-! ## C4, C5, C6 -/

/-- C4 counterexample: a run whose only discovered manifest cannot be
scanned still exits with status 0. -/
theorem c4_counterexample :
    exitCode c4_env cfgDefault = 0
    ∧ c4_env.goModFiles = Except.ok ["a/go.mod"]
    ∧ c4_env.scan 0 = Except.error () := by
  refine ⟨by decide, rfl, rfl⟩

/-- C4 amended: the exit status is 1 exactly when loading the configuration
or discovering go.mod files fails; it does not depend on scan results or on
remaining findings at all. -/
theorem c4_exit_code_spec (env : UpdateEnv) (cfg : Config) :
    exitCode env cfg
      = (if env.configOk = true ∧ exceptIsOk env.goModFiles = true then 0 else 1) := by
  unfold exitCode runUpdate exceptIsOk
  rcases hc : env.configOk with _ | _
  · simp
  · rcases hf : env.goModFiles with _ | _ <;> simp

theorem nodup_dedup_fold (f : String → String) (xs : List String) :
    ∀ acc : List String, acc.Nodup →
      (xs.foldl (fun acc dep =>
        let modulePath := f dep
        if modulePath ∈ acc then acc else acc ++ [modulePath]) acc).Nodup := by
  induction xs with
  | nil => intro acc h; exact h
  | cons x xs ih =>
    intro acc h
    rw [List.foldl_cons]
    by_cases hx : f x ∈ acc
    · simp only [hx, if_pos]
      exact ih acc h
    · simp only [hx, if_neg]
      apply ih
      simp [List.Nodup, List.pairwise_append, h, hx]
      exact ⟨h, fun a ha heq => hx (heq ▸ ha)⟩

/-- C5 amended: the deduplicated candidate list never contains two entries
with the same resolved module path. -/
theorem c5_chain_candidates_nodup (reqs : List Dependency) (whyDeps : List String)
    (vulnPkg : String) : (chainCandidates reqs whyDeps vulnPkg).Nodup := by
  unfold chainCandidates dedupModulePaths
  exact nodup_dedup_fold (importPathToModulePath reqs) _ [] List.nodup_nil

/-- C5 counterexample: when the vulnerable package is itself declared as a
direct dependency sharing its own namespace (the scanner's directness flag
and go.mod can disagree), the candidate list contains the vulnerable path. -/
theorem c5_counterexample :
    chainCandidates [Dependency.mk "github.com/a/b" "v1.0.0" false] [] "github.com/a/b"
      = ["github.com/a/b"]
    ∧ "github.com/a/b" ∈
        chainCandidates [Dependency.mk "github.com/a/b" "v1.0.0" false] [] "github.com/a/b" := by
  refine ⟨by decide, by decide⟩

/-- C6 counterexample: an AI response carrying the invalid status
"exploitable" yields a statement with status under_investigation but with
the AI's own impact statement, not the generic one. -/
theorem c6_counterexample :
    (makeStatement sampleVulnLow true c6_call).status = "under_investigation"
    ∧ (makeStatement sampleVulnLow true c6_call).impactStatement = "Specific impact text."
    ∧ (makeStatement sampleVulnLow true c6_call).impactStatement ≠ genericAIImpact
    ∧ validStatuses.contains "exploitable" = false := by
  refine ⟨rfl, rfl, by decide, by decide⟩

/-- C6 amended: with the AI collaborator configured, every degraded outcome
yields status under_investigation; the generic impact statement is used
exactly when the call fails, times out, or is unparseable, while an invalid
status value keeps the AI-provided justification and impact statement. -/
theorem c6_fallback_spec (vuln : Vulnerability) (call : AICallOutcome) :
    (call = AICallOutcome.failure ∨ call = AICallOutcome.response none →
      makeStatement vuln true call
        = Statement.mk vuln.vulnerabilityID vuln.pkgName "under_investigation" ""
            genericAIImpact)
    ∧ (∀ j, call = AICallOutcome.response (some j) →
        validStatuses.contains j.status = false →
        makeStatement vuln true call
          = Statement.mk vuln.vulnerabilityID vuln.pkgName "under_investigation"
              j.justification j.impactStatement) := by
  constructor
  · rintro (rfl | rfl) <;> rfl
  · rintro j rfl hbad
    unfold makeStatement generateAIJustification
    rw [if_pos rfl]
    simp only [hbad, Bool.false_eq_true, if_false]

/-- Witness for C6 at the counterexample inputs. -/
theorem c6_fallback_spec_witness :
    makeStatement sampleVulnLow true AICallOutcome.failure
      = Statement.mk "CVE-2024-0002" "github.com/a/c" "under_investigation" "" genericAIImpact
    ∧ makeStatement sampleVulnLow true c6_call
      = Statement.mk "CVE-2024-0002" "github.com/a/c" "under_investigation" "because"
          "Specific impact text." := by
  constructor
  · rw [(c6_fallback_spec sampleVulnLow AICallOutcome.failure).1 (Or.inl rfl)]
    rfl
  · rw [(c6_fallback_spec sampleVulnLow c6_call).2
      (AIGeneratedJustification.mk "exploitable" "because" "Specific impact text.") rfl
      (by decide)]
    rfl

/-! ## C1, C2, C3: the chain-update resolver -/

/-- C1 (code bug): when the explicit `go mod why` trace contributes zero
candidates and all candidates come from the namespace fallback, exhausting
the candidate loop reaches `directDeps[0]` on an empty slice: the Go code
panics with an index-out-of-range instead of returning the [failed] error
the spec requires. -/
theorem c1_panic_after_candidate_loop :
    updateThroughDirectDep c1_env "github.com/sigstore/timestamp-authority" cfgDefault
      = TraceResult.mk UOutcome.panicIndex ["github.com/sigstore/sigstore-go"] := by
  decide

/-- C2 counterexample: when the chain oracle itself fails (command error),
`updateThroughDirectDep` returns a hard "failed to trace dependency chain"
error immediately, without consulting the namespace fallback even though it
would have produced a candidate. -/
theorem c2_counterexample :
    updateThroughDirectDep c2_env "github.com/sigstore/timestamp-authority" cfgDefault
      = TraceResult.mk UOutcome.traceError []
    ∧ findRelatedDirectDependencies c2_env.reqs "github.com/sigstore/timestamp-authority"
        = ["github.com/sigstore/sigstore-go"] := by
  refine ⟨by decide, by decide⟩

/-- C2 amended: a chain oracle run that succeeds but yields nothing usable
is treated as "no candidates" and the namespace fallback still runs; but a
chain oracle command failure is a hard error that skips the fallback. -/
theorem c2_trace_handling :
    (∀ (env : TraceEnv) (vulnPkg : String) (cfg : Config) (lines : List String),
      env.whyOutput = Except.ok lines → parseWhyLines lines = [] →
      updateThroughDirectDep env vulnPkg cfg =
        (let relatedDeps :=
          if env.relatedParserOk then findRelatedDirectDependencies env.reqs vulnPkg else []
         let allDeps := dedupModulePaths env.reqs relatedDeps
         if allDeps = [] then TraceResult.mk UOutcome.noCandidates []
         else
           match firstFixed env.tryCand allDeps.length with
           | some i => TraceResult.mk (UOutcome.fixedViaCandidate i) allDeps
           | none => TraceResult.mk UOutcome.panicIndex allDeps))
    ∧ (∀ (env : TraceEnv) (vulnPkg : String) (cfg : Config),
        env.whyOutput = Except.error () →
        updateThroughDirectDep env vulnPkg cfg = TraceResult.mk UOutcome.traceError []) := by
  constructor
  · intro env vulnPkg cfg lines hwhy hparse
    unfold updateThroughDirectDep
    rw [hwhy]
    simp only [FindDirectDependencyFor]
    rw [hparse]
    rfl
  · intro env vulnPkg cfg hwhy
    unfold updateThroughDirectDep
    rw [hwhy]
    rfl

/-- Witness for C2 at concrete environments: an oracle run with only a root
line falls through to the (empty) fallback and fails with "no candidates";
an oracle command failure returns the hard trace error. -/
theorem c2_trace_handling_witness :
    updateThroughDirectDep c2w_env "github.com/a/b" cfgDefault
      = TraceResult.mk UOutcome.noCandidates []
    ∧ updateThroughDirectDep c2_env "github.com/enterprise/pkg" cfgDefault
      = TraceResult.mk UOutcome.traceError [] := by
  constructor
  · rw [c2_trace_handling.1 c2w_env "github.com/a/b" cfgDefault
      ["# github.com/a/b", "github.com/my/mod"] rfl (by decide)]
    decide
  · exact c2_trace_handling.2 c2_env "github.com/enterprise/pkg" cfgDefault rfl


/-- C3 counterexample: a candidate whose update to the latest version
(v2.0.0, a major bump over the declared v1.0.0) is executed and succeeds
although allow-major is false: the candidate update is not gated. -/
theorem c3_counterexample :
    IsMajorVersionBump (GetVersion c3_reqs "github.com/x/y") "v2.0.0" = true
    ∧ cfgDefault.allowMajor = false
    ∧ updateDirectDepAndVerify c3_reqs c3_cand_env "github.com/x/y" cfgDefault
        = (Except.ok (), [GoCmd.goGet "github.com/x/y" "latest", GoCmd.tidy]) := by
  refine ⟨by decide, rfl, rfl⟩

/-- The post-loop fallback target version is always "latest". -/
theorem legacy_target_latest (g : Except Unit (List GraphEdge)) (d : String) :
    targetVersionOf g d = "latest" := by
  rcases g with _ | _ <;> rfl

/-- C3 amended: chain-candidate updates are not subject to the major-bump
policy gate: `updateDirectDepAndVerify` ignores the allow-major flag and
always issues `go get module@latest`; and the only major-bump gate in
`updateThroughDirectDep` (on the post-loop fallback path) can never fire,
because the target version there is always "latest". -/
theorem c3_no_candidate_major_gate :
    (∀ (reqs : List Dependency) (env : CandEnv) (directDep : String) (cfg : Config),
      updateDirectDepAndVerify reqs env directDep cfg
        = updateDirectDepAndVerify reqs env directDep
            ⟨cfg.path, cfg.cvssThreshold, cfg.skipTidy, cfg.dryRun, true, cfg.generateVEX⟩)
    ∧ (∀ (reqs : List Dependency) (env : CandEnv) (directDep : String) (cfg : Config),
        (updateDirectDepAndVerify reqs env directDep cfg).2.head?
          = some (GoCmd.goGet (importPathToModulePath reqs directDep) "latest"))
    ∧ (∀ (env : TraceEnv) (vulnPkg : String) (cfg : Config),
        (updateThroughDirectDep env vulnPkg cfg).outcome ≠ UOutcome.legacyMajorBlocked) := by
  refine ⟨?_, ?_, ?_⟩
  · intro reqs env directDep cfg
    rfl
  · intro reqs env directDep cfg
    unfold updateDirectDepAndVerify
    by_cases h1 : env.goGetOk = false
    · rw [if_pos h1]; rfl
    · rw [if_neg h1]
      by_cases h2 : cfg.skipTidy
      · rw [if_pos h2]; rfl
      · rw [if_neg h2]
        by_cases h3 : env.tidyOk = false
        · rw [if_pos h3]; rfl
        · rw [if_neg h3]; rfl
  · intro env vulnPkg cfg
    unfold updateThroughDirectDep
    simp only [legacy_target_latest, ne_eq, not_true_eq_false, false_and, if_false]
    repeat' split
    all_goals simp

end Autobump
